import Mathlib

/-!
Verification of the bibtexter citation extractor (src/main.rs) against its
natural-language specification.  The Rust source is shallowly embedded:
strings are `List Char`, fallible operations return `Option`, and a Rust
panic is modelled as `Except.error ()`.  The network, the HTML parser and
the URL parser are external collaborators; they enter the model as oracle
data carried by an `Env` value.
-/

namespace Bibtexter

/-- Models Rust `char::is_whitespace`: the Unicode `White_Space` property
(a fixed, finite set of code points). -/
def rustIsWhitespace (c : Char) : Bool :=
  let n := c.toNat
  (0x09 ≤ n && n ≤ 0x0D) || n == 0x20 || n == 0x85 || n == 0xA0 ||
  n == 0x1680 || (0x2000 ≤ n && n ≤ 0x200A) || n == 0x2028 || n == 0x2029 ||
  n == 0x202F || n == 0x205F || n == 0x3000

/-- Models Rust `char::is_alphanumeric` on the ASCII range (the full Unicode
`Alphabetic`/number classification is out of scope of this model; non-ASCII
characters are classified as non-alphanumeric here). -/
def rustIsAlphanumeric (c : Char) : Bool :=
  c.isAlpha || c.isDigit

/-- Models Rust `str::trim`: drop leading and trailing whitespace. -/
def trim (s : List Char) : List Char :=
  (((s.dropWhile rustIsWhitespace).reverse.dropWhile rustIsWhitespace)).reverse

/-- Models Rust `s.split_whitespace().next()`: the first maximal non-empty run
of non-whitespace characters, if any. -/
def splitWsNext (s : List Char) : Option (List Char) :=
  let t := (s.dropWhile rustIsWhitespace).takeWhile (fun c => !rustIsWhitespace c)
  if t = [] then none else some t

/-- UTF-8 encoded size in bytes of one character. -/
def utf8Len (c : Char) : Nat :=
  if c.toNat < 0x80 then 1
  else if c.toNat < 0x800 then 2
  else if c.toNat < 0x10000 then 3
  else 4

/-- UTF-8 encoded size in bytes of a string. -/
def byteLen (s : List Char) : Nat :=
  (s.map utf8Len).sum

/-- Models the Rust byte-slice `&s[..n]`: `some` of the characters occupying
exactly the first `n` bytes when `n` is a character boundary within the
string, and `none` (a panic) when the string is shorter than `n` bytes or
byte `n` falls inside a multi-byte character. -/
def byteSlice (s : List Char) (n : Nat) : Option (List Char) :=
  match s with
  | [] => if n = 0 then some [] else none
  | c :: rest =>
    if n = 0 then some []
    else if utf8Len c ≤ n then (byteSlice rest (n - utf8Len c)).map (c :: ·)
    else none

/-- Models the closure `|s| s[..4].to_string()` used for year extraction
(src/main.rs lines 322 and 348); `none` is the panic on short input. -/
def yearFromDate (s : List Char) : Option (List Char) :=
  byteSlice s 4

/-- Models `article.date_published.map(|s| s[..4].to_string()).unwrap_or_default()`:
an outer `none` is the panic; an absent date yields the empty year. -/
def yearOfDateOpt (d : Option (List Char)) : Option (List Char) :=
  match d with
  | none => some []
  | some s => yearFromDate s

/-- Models `Vec::join(" and ")` on the author-name list. -/
def joinAnd : List (List Char) → List Char
  | [] => []
  | [x] => x
  | x :: y :: rest => x ++ " and ".toList ++ joinAnd (y :: rest)

/-- Embeds `generate_citation_key` (src/main.rs lines 373-390). -/
def generate_citation_key (author year title : List Char) : List Char :=
  let author_part := (splitWsNext author).getD "Unknown".toList
  let year_part := if year = [] then "ND".toList else year
  let title_part := (splitWsNext title).getD "NoTitle".toList
  author_part.filter rustIsAlphanumeric ++ year_part ++
    title_part.filter rustIsAlphanumeric

/-! JSON values and the serde decode of the `SchemaArticle` struct
(src/main.rs lines 29-43).  `serde_json::from_str` first parses the text to a
JSON value and then decodes it; text parsing is an external library and each
script block therefore enters the model as the `Option Json` outcome of that
parse (`none` = the text is not valid JSON). -/

inductive Json where
  | null : Json
  | bool : Bool → Json
  | num : Int → Json
  | str : List Char → Json
  | arr : List Json → Json
  | obj : List (List Char × Json) → Json

/-- Embeds `SchemaAuthor` (src/main.rs lines 40-43). -/
structure SchemaAuthor where
  name : List Char
deriving DecidableEq, Repr

/-- Embeds `SchemaArticle` (src/main.rs lines 29-38); field names follow the
serde renames: the JSON keys are `@type`, `headline`, `author`,
`datePublished`. -/
structure SchemaArticle where
  type_of : List Char
  headline : Option (List Char)
  author : List SchemaAuthor
  date_published : Option (List Char)
deriving DecidableEq, Repr

/-- First value stored under a key in a JSON object, serde-style. -/
def getField (fs : List (List Char × Json)) (k : List Char) : Option Json :=
  match fs with
  | [] => none
  | (k', v) :: rest => if k' = k then some v else getField rest k

/-- Number of occurrences of a key in a JSON object (serde_json rejects a
duplicated known field with a `duplicate field` error). -/
def countField (fs : List (List Char × Json)) (k : List Char) : Nat :=
  match fs with
  | [] => 0
  | (k', _) :: rest => (if k' = k then 1 else 0) + countField rest k

/-- serde decode of a required `String` field value. -/
def decodeString : Json → Option (List Char)
  | .str s => some s
  | _ => none

/-- serde decode of an `Option String` field value: JSON `null` is `None`,
a JSON string is `Some`, anything else is a decode error. -/
def decodeOptString : Json → Option (Option (List Char))
  | .null => some none
  | .str s => some (some s)
  | _ => none

/-- serde decode of one `SchemaAuthor`: an object with a required string
field `name`. -/
def decodeSchemaAuthor : Json → Option SchemaAuthor
  | .obj fs =>
    if countField fs "name".toList ≥ 2 then none
    else
      match getField fs "name".toList with
      | some v => (decodeString v).map SchemaAuthor.mk
      | none => none
  | _ => none

/-- serde decode of `Vec<SchemaAuthor>`: a JSON array whose every element
decodes; anything else (including `null`) is a decode error. -/
def decodeAuthorVec : Json → Option (List SchemaAuthor)
  | .arr xs => xs.mapM decodeSchemaAuthor
  | _ => none

/-- An `Option String` field of `SchemaArticle`: a missing key defaults to
`none`, a present key must hold `null` or a string. -/
def decodeOptStringField (fs : List (List Char × Json)) (k : List Char) :
    Option (Option (List Char)) :=
  match getField fs k with
  | none => some none
  | some v => decodeOptString v

/-- The `author` field of `SchemaArticle`: `#[serde(default)]` applies only
when the key is MISSING; a present but malformed value is a decode error. -/
def decodeAuthorField (fs : List (List Char × Json)) : Option (List SchemaAuthor) :=
  match getField fs "author".toList with
  | none => some []
  | some v => decodeAuthorVec v

/-- Whether one of the four known fields of `SchemaArticle` is duplicated. -/
def hasDupField (fs : List (List Char × Json)) : Bool :=
  countField fs "@type".toList ≥ 2 || countField fs "headline".toList ≥ 2 ||
  countField fs "author".toList ≥ 2 || countField fs "datePublished".toList ≥ 2

/-- Models `serde_json::from_str::<SchemaArticle>` on an already-parsed JSON
value (src/main.rs line 334 together with the struct declaration): the value
must be an object, `@type` is a required string, `headline` and
`datePublished` are optional strings, `author` defaults to the empty list
when absent and must otherwise be an array of `{name}` objects.  Unknown
fields are ignored. -/
def fromJsonSchemaArticle : Json → Option SchemaArticle
  | .obj fs =>
    if hasDupField fs then none
    else
      (getField fs "@type".toList).bind fun tv =>
      (decodeString tv).bind fun t =>
      (decodeOptStringField fs "headline".toList).bind fun h =>
      (decodeAuthorField fs).bind fun au =>
      (decodeOptStringField fs "datePublished".toList).map fun d =>
        ⟨t, h, au, d⟩
  | _ => none

/-- The parse-then-decode of one script block (`none` = the block is not
valid JSON, or does not decode as a `SchemaArticle`). -/
def decodeBlock (b : Option Json) : Option SchemaArticle :=
  b.bind fromJsonSchemaArticle

/-- The accepted `@type` values (src/main.rs lines 335-338). -/
def typeAccepted (t : List Char) : Bool :=
  t == "Article".toList || t == "NewsArticle".toList || t == "BlogPosting".toList

/-- Embeds the loop body of `extract_from_schema` (src/main.rs lines
330-358) over the document-ordered JSON-LD script blocks.  Note that the
year is computed (and can panic, `Except.error ()`) before the non-empty
title check, exactly as in the source. -/
def schemaScan : List (Option Json) →
    Except Unit (Option (List Char × List Char × List Char))
  | [] => .ok none
  | b :: rest =>
    match decodeBlock b with
    | none => schemaScan rest
    | some article =>
      if typeAccepted article.type_of then
        let title := article.headline.getD []
        let authors := joinAnd (article.author.map SchemaAuthor.name)
        match yearOfDateOpt article.date_published with
        | none => .error ()
        | some year =>
          if title = [] then schemaScan rest else .ok (some (title, authors, year))
      else schemaScan rest

/-! HTML documents and CSS-selector lookups.  `scraper::Html::parse_document`
is an external library; a parsed document enters the model as the flat list
of its elements in document order (tag name, attributes, inner HTML) plus
the JSON-parse outcomes of its `script[type='application/ld+json']` blocks,
also in document order. -/

structure Element where
  tag : List Char
  attrs : List (List Char × List Char)
  inner_html : List Char
deriving DecidableEq, Repr

structure HtmlDoc where
  elements : List Element
  ldJsonBlocks : List (Option Json)

/-- The fragment of CSS selectors this program uses: a bare tag name, or a
tag name with one `[attr='value']` condition. -/
inductive CssSelector where
  | tag : List Char → CssSelector
  | tagAttr : List Char → List Char → List Char → CssSelector
deriving DecidableEq, Repr

/-- Characters allowed in the tag/attribute identifiers of the modelled
selector fragment. -/
def selIdentChar (c : Char) : Bool := c.isAlpha

/-- Models `scraper::Selector::parse` on the selector fragment this program
uses (`tag` and `tag[attr='value']`); any string outside that fragment is
treated as an invalid selector (`none`). -/
def parseSelector (s : List Char) : Option CssSelector :=
  let tagPart := s.takeWhile selIdentChar
  if tagPart = [] then none
  else
    match s.dropWhile selIdentChar with
    | [] => some (.tag tagPart)
    | '[' :: r1 =>
      let attrPart := r1.takeWhile selIdentChar
      if attrPart = [] then none
      else
        match r1.dropWhile selIdentChar with
        | '=' :: '\'' :: r3 =>
          let valPart := r3.takeWhile (fun c => c ≠ '\'')
          match r3.dropWhile (fun c => c ≠ '\'') with
          | ['\'', ']'] => some (.tagAttr tagPart attrPart valPart)
          | _ => none
        | _ => none
    | _ => none

/-- First value of an attribute on an element (html5ever keeps the first
occurrence of a duplicated attribute). -/
def attrLookup (e : Element) (name : List Char) : Option (List Char) :=
  (e.attrs.find? (fun p => p.1 == name)).map (·.2)

/-- Whether an element matches a selector of the modelled fragment. -/
def matchesSelector (sel : CssSelector) (e : Element) : Bool :=
  match sel with
  | .tag t => e.tag == t
  | .tagAttr t a v => e.tag == t && attrLookup e a == some v

/-- Embeds `select_text` (src/main.rs lines 361-370): parse the selector
(`None` on an invalid one), take the first matching element in document
order, then return the trimmed inner HTML for the pseudo-attribute `text`
or the trimmed value of the requested attribute. -/
def select_text (document : HtmlDoc) (selector_str attr : List Char) :
    Option (List Char) :=
  match parseSelector selector_str with
  | none => none
  | some selector =>
    match document.elements.find? (matchesSelector selector) with
    | none => none
    | some element =>
      if attr = "text".toList then some (trim element.inner_html)
      else (attrLookup element attr).map trim

/-- Embeds `extract_from_schema` (src/main.rs lines 330-358). -/
def extract_from_schema (document : HtmlDoc) :
    Except Unit (Option (List Char × List Char × List Char)) :=
  schemaScan document.ldJsonBlocks

/-- The title computation of the meta-tag fallback (src/main.rs lines
309-311). -/
def metaTitleOf (document : HtmlDoc) : List Char :=
  ((select_text document "meta[property='og:title']".toList "content".toList).orElse
    (fun _ => select_text document "title".toList "text".toList)).getD []

/-- The author computation of the meta-tag fallback (src/main.rs lines
313-315). -/
def metaAuthorOf (document : HtmlDoc) : List Char :=
  ((select_text document "meta[name='author']".toList "content".toList).orElse
    (fun _ => select_text document "meta[property='article:author']".toList "content".toList)).getD []

/-- The year computation of the meta-tag fallback (src/main.rs lines
317-323); `Except.error ()` is the panic of the 4-byte slice. -/
def metaYearOf (document : HtmlDoc) : Except Unit (List Char) :=
  match select_text document "meta[property='article:published_time']".toList "content".toList with
  | none => .ok []
  | some s =>
    match yearFromDate s with
    | none => .error ()
    | some y => .ok y

/-- The meta-tag branch of `extract_metadata` (src/main.rs lines 308-326). -/
def metaTagTriple (document : HtmlDoc) :
    Except Unit (List Char × List Char × List Char) :=
  match metaYearOf document with
  | .error e => .error e
  | .ok year => .ok (metaTitleOf document, metaAuthorOf document, year)

/-- Embeds `extract_metadata` (src/main.rs lines 301-327): the JSON-LD
result when there is one, the meta-tag fallback otherwise; a panic in
either stage propagates. -/
def extract_metadata (document : HtmlDoc) :
    Except Unit (List Char × List Char × List Char) :=
  match extract_from_schema document with
  | .error e => .error e
  | .ok (some t) => .ok t
  | .ok none => metaTagTriple document

/-! The orchestrator `fetch_and_generate_bibtex` (src/main.rs lines
210-298).  HTTP, the HTML parser, the URL parser and the clock are external
collaborators; one request's view of them is an `Env` value. -/

/-- Helper for the DOI regex model: strip a literal from the front. -/
def stripLit (pre : String) (s : List Char) : Option (List Char) :=
  if pre.toList.isPrefixOf s then some (s.drop pre.length) else none

/-- Models `DOI_RE.captures(url_str)` for the anchored pattern
`^(?:https?://)?(?:dx\.)?doi\.org/(.+)` (src/main.rs line 17): the capture
is the maximal newline-free run after `doi.org/` and must be non-empty.
The literal alternatives are prefix-disjoint, so this deterministic
strategy coincides with the regex engine's backtracking search. -/
def doiCapture (s : List Char) : Option (List Char) :=
  let afterScheme :=
    match stripLit "https://" s with
    | some r => r
    | none =>
      match stripLit "http://" s with
      | some r => r
      | none => s
  let afterDx :=
    match stripLit "dx." afterScheme with
    | some r => r
    | none => afterScheme
  match stripLit "doi.org/" afterDx with
  | none => none
  | some r =>
    let cap := r.takeWhile (fun c => c ≠ '\n')
    if cap = [] then none else some cap

instance {ε α : Type} [DecidableEq ε] [DecidableEq α] : DecidableEq (Except ε α) :=
  fun a b =>
    match a, b with
    | .ok x, .ok y =>
      if h : x = y then .isTrue (by rw [h]) else .isFalse (by simp [h])
    | .error x, .error y =>
      if h : x = y then .isTrue (by rw [h]) else .isFalse (by simp [h])
    | .ok x, .error y => .isFalse (fun h => Except.noConfusion h)
    | .error x, .ok y => .isFalse (fun h => Except.noConfusion h)

/-- One outgoing HTTP request's outcome: `send()` may fail at the transport
level, and reading the body with `text()` may fail separately. -/
inductive FetchResult where
  | sendErr : FetchResult
  | resp : Nat → Except Unit (List Char) → FetchResult
deriving DecidableEq, Repr

/-- Embeds `AppError` (src/main.rs lines 58-62); the payloads of the two
library error variants are outside the model. -/
inductive AppError where
  | RequestError : AppError
  | UrlParseError : AppError
  | ExtractionError : List Char → AppError
deriving DecidableEq, Repr

/-- The observable outcome of one request: a Rust panic, `Err(AppError)`, or
`Ok(bibtex)`. -/
inductive Outcome where
  | panicked : Outcome
  | err : AppError → Outcome
  | ok : List Char → Outcome
deriving DecidableEq, Repr

def Outcome.isOk : Outcome → Bool
  | .ok _ => true
  | _ => false

/-- Models `reqwest::StatusCode::is_success`. -/
def is_success (s : Nat) : Bool :=
  200 ≤ s && s < 300

/-- Models the `Display` of a status code up to the reason phrase (the
claims never inspect the message text). -/
def statusDisplay (s : Nat) : List Char :=
  (Nat.repr s).toList

/-- One request's view of the external collaborators: the registry's answer
to the content-negotiated DOI GET, the answer to the plain page GET, the
HTML parser, the `Url::parse(url_str)`-then-`host_str()` outcome, and the
formatted local date. -/
structure Env where
  doiResponse : FetchResult
  pageResponse : FetchResult
  parse_document : List Char → HtmlDoc
  urlHost : Except Unit (Option (List Char))
  today : List Char

/-- Embeds the record assembly (src/main.rs lines 275-295). -/
def assembleBibtex (citation_key title author url_str today year site_name :
    List Char) : List Char :=
  "@misc\x7b".toList ++ citation_key ++ ",\n".toList ++
  "  title = \x7b".toList ++ title ++ "\x7d,\n".toList ++
  (if author = [] then [] else "  author = \x7b".toList ++ author ++ "\x7d,\n".toList) ++
  "  howpublished = \x7b\\url\x7b".toList ++ url_str ++ "\x7d\x7d,\n".toList ++
  "  note = \x7bAccessed: ".toList ++ today ++ "\x7d,\n".toList ++
  (if year = [] then [] else "  year = \x7b".toList ++ year ++ "\x7d,\n".toList) ++
  "  urldate = \x7b".toList ++ today ++ "\x7d,\n".toList ++
  "  publisher = \x7b".toList ++ site_name ++ "\x7d,\n".toList ++
  ['\x7d']

/-- Strategy 1 of `fetch_and_generate_bibtex` (src/main.rs lines 215-239):
`some` when the DOI stage decides the request (a returned record or a
transport error), `none` when control falls through to scraping. -/
def doiStage (env : Env) (url_str : List Char) : Option Outcome :=
  match doiCapture url_str with
  | none => none
  | some _doi =>
    match env.doiResponse with
    | .sendErr => some (.err .RequestError)
    | .resp status text =>
      if is_success status then
        match text with
        | .error _ => some (.err .RequestError)
        | .ok t =>
          if trim t ≠ [] ∧ t.head? = some '@' then some (.ok t) else none
      else none

/-- Strategy 2 of `fetch_and_generate_bibtex` (src/main.rs lines 242-297):
fetch the page, check the status, parse, extract, assemble. -/
def scrapeStage (env : Env) (url_str : List Char) : Outcome :=
  match env.pageResponse with
  | .sendErr => .err .RequestError
  | .resp status text =>
    if is_success status then
      match text with
      | .error _ => .err .RequestError
      | .ok html_content =>
        let document := env.parse_document html_content
        match env.urlHost with
        | .error _ => .err .UrlParseError
        | .ok host =>
          let site_name := host.getD []
          match extract_metadata document with
          | .error _ => .panicked
          | .ok (title, author, year) =>
            if title = [] then
              .err (.ExtractionError "Could not find a title for the page.".toList)
            else
              .ok (assembleBibtex (generate_citation_key author year title)
                title author url_str env.today year site_name)
    else .err (.ExtractionError ("URL returned status ".toList ++ statusDisplay status))

/-- Embeds `fetch_and_generate_bibtex` (src/main.rs lines 210-298). -/
def fetch_and_generate_bibtex (env : Env) (url_str : List Char) : Outcome :=
  match doiStage env url_str with
  | some o => o
  | none => scrapeStage env url_str

/-! Specification-side descriptions, to be compared with the embedded code. -/

/-- Specification-side acceptance test for one JSON-LD block: it decodes,
its `@type` is an accepted article variant, and its resolved headline is
non-empty. -/
def isAcceptedBlock (b : Option Json) : Bool :=
  match decodeBlock b with
  | some article => typeAccepted article.type_of && !(article.headline.getD []).isEmpty
  | none => false

/-- Whether scanning a block panics: it decodes, its `@type` is accepted,
and the 4-byte slice of its `datePublished` fails (the headline plays no
role: the year is computed before the title check). -/
def blockPanics (b : Option Json) : Bool :=
  match decodeBlock b with
  | some article =>
    typeAccepted article.type_of && (yearOfDateOpt article.date_published).isNone
  | none => false

/-- Specification-side year of a block: first 4 bytes of `datePublished`,
empty when the date is absent (the value the scan produces when it does not
panic). -/
def specYearOf (dp : Option (List Char)) : List Char :=
  match dp with
  | none => []
  | some s => (yearFromDate s).getD []

/-- Specification-side result of an accepted block:
`(headline, join(names, " and "), first 4 bytes of datePublished or empty)`. -/
def acceptedResult (b : Option Json) : List Char × List Char × List Char :=
  match decodeBlock b with
  | some article =>
    (article.headline.getD [],
     joinAnd (article.author.map SchemaAuthor.name),
     specYearOf article.date_published)
  | none => ([], [], [])

/-- Specification-side title of the meta-tag fallback: the trimmed `content`
of the first `meta[property='og:title']`, else the trimmed inner HTML of the
first `title` element, else empty. -/
def specMetaTitle (document : HtmlDoc) : List Char :=
  match (document.elements.find? (matchesSelector
      (.tagAttr "meta".toList "property".toList "og:title".toList))).bind
      (fun e => (attrLookup e "content".toList).map trim) with
  | some v => v
  | none =>
    match document.elements.find? (matchesSelector (.tag "title".toList)) with
    | some e => trim e.inner_html
    | none => []

/-- Specification-side author of the meta-tag fallback: the trimmed
`content` of the first `meta[name='author']`, else of the first
`meta[property='article:author']`, else empty. -/
def specMetaAuthor (document : HtmlDoc) : List Char :=
  match (document.elements.find? (matchesSelector
      (.tagAttr "meta".toList "name".toList "author".toList))).bind
      (fun e => (attrLookup e "content".toList).map trim) with
  | some v => v
  | none =>
    match (document.elements.find? (matchesSelector
        (.tagAttr "meta".toList "property".toList "article:author".toList))).bind
        (fun e => (attrLookup e "content".toList).map trim) with
    | some v => v
    | none => []

/-! Concrete inputs exercised by the claim theorems. -/

/-- A page whose only metadata is an Open Graph title. -/
def docWithOgTitle : HtmlDoc :=
  ⟨[⟨"meta".toList,
     [("property".toList, "og:title".toList), ("content".toList, "Cool Post".toList)],
     []⟩], []⟩

/-- A world in which the DOI registry is unreachable but the page itself is
served fine and carries an extractable title. -/
def envDoiTransportDown : Env :=
  { doiResponse := .sendErr
    pageResponse := .resp 200 (.ok [])
    parse_document := fun _ => docWithOgTitle
    urlHost := .ok (some "example.com".toList)
    today := "2025-01-01".toList }

/-- A world in which the DOI registry answers 200 with the body `" @a"`:
non-empty after trimming and its first non-whitespace character is `@`,
but its first character is a space. -/
def envDoiLeadingSpace : Env :=
  { doiResponse := .resp 200 (.ok " @a".toList)
    pageResponse := .sendErr
    parse_document := fun _ => ⟨[], []⟩
    urlHost := .ok none
    today := [] }

/-- A world in which the DOI registry answers 200 with the body `"@a"`. -/
def envDoiClean : Env :=
  { doiResponse := .resp 200 (.ok "@a".toList)
    pageResponse := .sendErr
    parse_document := fun _ => ⟨[], []⟩
    urlHost := .ok none
    today := [] }

/-- A world in which the page GET answers 404. -/
def envStatus404 : Env :=
  { doiResponse := .sendErr
    pageResponse := .resp 404 (.ok [])
    parse_document := fun _ => ⟨[], []⟩
    urlHost := .ok none
    today := [] }

/-- An accepted-type block whose `datePublished` is the 2-byte garbage
string `"ab"`. -/
def blockShortDate : Json :=
  .obj [("@type".toList, .str "Article".toList),
        ("headline".toList, .str "Hi".toList),
        ("datePublished".toList, .str "ab".toList)]

/-- A document whose only JSON-LD block is `blockShortDate`. -/
def docSchemaShortDate : HtmlDoc := ⟨[], [some blockShortDate]⟩

/-- An accepted block (decodes, `@type` is `Article`, headline non-empty)
whose `datePublished` is the 1-byte string `"x"`. -/
def blockPanicDate : Json :=
  .obj [("@type".toList, .str "Article".toList),
        ("headline".toList, .str "T".toList),
        ("datePublished".toList, .str "x".toList)]

/-- A document whose only JSON-LD block is `blockPanicDate`. -/
def docSchemaPanic : HtmlDoc := ⟨[], [some blockPanicDate]⟩

/-- A decodable block whose `@type` is not an article variant. -/
def blockWrongType : Json :=
  .obj [("@type".toList, .str "Person".toList),
        ("headline".toList, .str "X".toList)]

/-- A fully populated accepted block. -/
def blockFull : Json :=
  .obj [("@type".toList, .str "NewsArticle".toList),
        ("headline".toList, .str "Big News".toList),
        ("author".toList, .arr [.obj [("name".toList, .str "Ann A".toList)],
                                .obj [("name".toList, .str "Bob B".toList)]]),
        ("datePublished".toList, .str "1999-12-31".toList)]

/-- A document whose block list exercises the scan: a JSON parse failure,
a decodable block of the wrong type, then an accepted block. -/
def docSchemaCascade : HtmlDoc := ⟨[], [none, some blockWrongType, some blockFull]⟩

/-- A block whose `author` field is present but malformed (a string instead
of an array of `{name}` objects). -/
def fsBadAuthor : List (List Char × Json) :=
  [("@type".toList, .str "Article".toList),
   ("headline".toList, .str "Hi".toList),
   ("author".toList, .str "Jane".toList)]

/-- Object fields with no `author` key at all. -/
def fsNoAuthor : List (List Char × Json) :=
  [("@type".toList, .str "Article".toList),
   ("headline".toList, .str "Hi".toList)]

/-- The decode of `fsNoAuthor`. -/
def artNoAuthor : SchemaArticle :=
  ⟨"Article".toList, some "Hi".toList, [], none⟩

/-- The JSON-LD block of spec Scenario B. -/
def blockScenarioB : Json :=
  .obj [("@type".toList, .str "Article".toList),
        ("headline".toList, .str "Hi".toList),
        ("author".toList, .arr [.obj [("name".toList, .str "Jane Doe".toList)]]),
        ("datePublished".toList, .str "2024-03-01".toList)]

/-- The page of spec Scenario B. -/
def docScenarioB : HtmlDoc := ⟨[], [some blockScenarioB]⟩

/-- A page with one of each meta-tag source. -/
def docMetaSample : HtmlDoc :=
  ⟨[⟨"meta".toList,
     [("property".toList, "og:title".toList), ("content".toList, "A".toList)], []⟩,
    ⟨"title".toList, [], "B".toList⟩,
    ⟨"meta".toList,
     [("name".toList, "author".toList), ("content".toList, "C".toList)], []⟩], []⟩

/-- A page whose `meta[property='article:published_time']` content is the
2-byte string `"ab"`. -/
def docMetaShortDate : HtmlDoc :=
  ⟨[⟨"meta".toList,
     [("property".toList, "article:published_time".toList), ("content".toList, "ab".toList)],
     []⟩], []⟩

/-! Helper lemmas. -/

theorem trim_ne_nil_of_head_at (b : List Char) (h : b.head? = some '@') :
    trim b ≠ [] := by
  cases b with
  | nil => simp at h
  | cons c t =>
    simp only [List.head?_cons, Option.some.injEq] at h
    subst h
    intro hcontra
    unfold trim at hcontra
    rw [List.dropWhile_cons, if_neg (by decide)] at hcontra
    have h2 := List.reverse_eq_nil_iff.mp hcontra
    have h3 := List.dropWhile_eq_nil_iff.mp h2
    have h4 := h3 '@' (by simp)
    exact absurd h4 (by decide)

theorem byteSlice_spec (s : List Char) : ∀ (n : Nat) (y : List Char),
    byteSlice s n = some y → s.take y.length = y ∧ byteLen y = n := by
  induction s with
  | nil =>
    intro n y h
    simp only [byteSlice] at h
    by_cases hn : n = 0
    · subst hn
      rw [if_pos rfl] at h
      simp only [Option.some.injEq] at h
      subst h
      simp [byteLen]
    · rw [if_neg hn] at h
      exact absurd h (by simp)
  | cons c rest ih =>
    intro n y h
    simp only [byteSlice] at h
    by_cases hn : n = 0
    · subst hn
      rw [if_pos rfl] at h
      simp only [Option.some.injEq] at h
      subst h
      simp [byteLen]
    · rw [if_neg hn] at h
      by_cases hle : utf8Len c ≤ n
      · rw [if_pos hle, Option.map_eq_some'] at h
        obtain ⟨y', hy', rfl⟩ := h
        obtain ⟨ht, hb⟩ := ih (n - utf8Len c) y' hy'
        refine ⟨?_, ?_⟩
        · simp [List.take_succ_cons, ht]
        · simp only [byteLen, List.map_cons, List.sum_cons] at hb ⊢
          omega
      · rw [if_neg hle] at h
        exact absurd h (by simp)

theorem one_le_utf8Len (c : Char) : 1 ≤ utf8Len c := by
  unfold utf8Len
  repeat' split
  all_goals omega

theorem length_le_byteLen (s : List Char) : s.length ≤ byteLen s := by
  induction s with
  | nil => simp [byteLen]
  | cons c t ih =>
    have := one_le_utf8Len c
    simp only [byteLen, List.map_cons, List.sum_cons, List.length_cons] at ih ⊢
    omega

theorem yearOfDateOpt_eq (dp : Option (List Char)) (y : List Char)
    (h : yearOfDateOpt dp = some y) : specYearOf dp = y := by
  cases dp with
  | none =>
    simp only [yearOfDateOpt, Option.some.injEq] at h
    simpa [specYearOf] using h.symm
  | some s =>
    simp only [yearOfDateOpt] at h
    simp [specYearOf, h]

theorem select_text_of_invalid (document : HtmlDoc) (s a : List Char)
    (h : parseSelector s = none) : select_text document s a = none := by
  unfold select_text
  rw [h]

theorem select_text_of_no_match (document : HtmlDoc) (s a : List Char)
    (sel : CssSelector) (h1 : parseSelector s = some sel)
    (h2 : document.elements.find? (matchesSelector sel) = none) :
    select_text document s a = none := by
  simp only [select_text, h1, h2]

theorem select_text_attr (document : HtmlDoc) (s t a v c : List Char)
    (hp : parseSelector s = some (.tagAttr t a v)) (hc : c ≠ "text".toList) :
    select_text document s c =
      (document.elements.find? (matchesSelector (.tagAttr t a v))).bind
        (fun e => (attrLookup e c).map trim) := by
  simp only [select_text, hp]
  have hc' : ¬ c = ['t', 'e', 'x', 't'] := by simpa using hc
  cases hf : document.elements.find? (matchesSelector (.tagAttr t a v)) with
  | none => rfl
  | some e => simp [hc']

theorem select_text_text (document : HtmlDoc) (s t : List Char)
    (hp : parseSelector s = some (.tag t)) :
    select_text document s "text".toList =
      (document.elements.find? (matchesSelector (.tag t))).map
        (fun e => trim e.inner_html) := by
  simp only [select_text, hp]
  cases hf : document.elements.find? (matchesSelector (.tag t)) with
  | none => rfl
  | some e => simp

theorem schemaScan_eq_find : ∀ (blocks : List (Option Json)),
    (∀ b ∈ blocks, blockPanics b = false) →
    schemaScan blocks = .ok ((blocks.find? isAcceptedBlock).map acceptedResult) := by
  intro blocks
  induction blocks with
  | nil => intro _; rfl
  | cons b rest ih =>
    intro h
    have hb : blockPanics b = false := h b (List.mem_cons_self _ _)
    have ih' := ih (fun x hx => h x (List.mem_cons_of_mem _ hx))
    cases hdec : decodeBlock b with
    | none =>
      have hacc : isAcceptedBlock b = false := by simp [isAcceptedBlock, hdec]
      simp only [schemaScan, hdec]
      rw [List.find?_cons_of_neg _ (by simp [hacc]), ih']
    | some article =>
      cases hty : typeAccepted article.type_of with
      | false =>
        have hacc : isAcceptedBlock b = false := by
          simp [isAcceptedBlock, hdec, hty]
        simp only [schemaScan, hdec, hty, Bool.false_eq_true, if_false]
        rw [List.find?_cons_of_neg _ (by simp [hacc]), ih']
      | true =>
        have hys : (yearOfDateOpt article.date_published).isSome = true := by
          have hb' := hb
          simp [blockPanics, hdec, hty] at hb'
          exact hb'
        obtain ⟨year, hy⟩ := Option.isSome_iff_exists.mp hys
        by_cases hti : article.headline.getD [] = []
        · have hacc : isAcceptedBlock b = false := by
            simp [isAcceptedBlock, hdec, hti]
          simp only [schemaScan, hdec, hty, hy, if_true]
          rw [if_pos hti, List.find?_cons_of_neg _ (by simp [hacc]), ih']
        · have hacc : isAcceptedBlock b = true := by
            simp [isAcceptedBlock, hdec, hty, hti]
          simp only [schemaScan, hdec, hty, hy, if_true]
          rw [if_neg hti, List.find?_cons_of_pos _ (by simp [hacc])]
          have hyr := yearOfDateOpt_eq article.date_published year hy
          simp [acceptedResult, hdec, hyr]

/-! The claims. -/

/-- C1, counterexample: the URL `https://doi.org/10.1000/182` matches the
DOI pattern and the registry GET fails at the transport level, yet the
orchestrator returns a transport error from that stage instead of
proceeding to the page-scraping path — the same world with a non-matching
URL scrapes successfully. -/
theorem c1_counterexample :
    doiCapture "https://doi.org/10.1000/182".toList ≠ none
    ∧ envDoiTransportDown.doiResponse = FetchResult.sendErr
    ∧ fetch_and_generate_bibtex envDoiTransportDown "https://doi.org/10.1000/182".toList =
        .err .RequestError
    ∧ Outcome.isOk
        (fetch_and_generate_bibtex envDoiTransportDown "https://example.com/post".toList) = true :=
  ⟨by decide, rfl, by decide, by decide⟩

/-- C1, amended: when the input URL matches the DOI pattern and the GET to
the registry fails at the transport level, the orchestrator aborts the
whole request with a transport error; it does not fall through to page
scraping. -/
theorem c1_doi_transport_aborts (env : Env) (url_str d : List Char)
    (h1 : doiCapture url_str = some d) (h2 : env.doiResponse = .sendErr) :
    fetch_and_generate_bibtex env url_str = .err .RequestError := by
  unfold fetch_and_generate_bibtex doiStage
  rw [h1, h2]

/-- C1, witness for the amended theorem at a concrete world. -/
theorem c1_witness :
    fetch_and_generate_bibtex envDoiTransportDown "doi.org/10.1/x".toList =
      .err .RequestError :=
  c1_doi_transport_aborts envDoiTransportDown _ "10.1/x".toList (by decide) rfl

/-- C2, counterexample: the registry answers 200 with body `" @a"`, whose
trimmed form is non-empty and whose first non-whitespace character is `@`,
yet the DOI stage yields nothing (the code tests the first raw character)
and the body is not returned as the final output. -/
theorem c2_counterexample :
    is_success 200 = true
    ∧ trim " @a".toList ≠ []
    ∧ (trim " @a".toList).head? = some '@'
    ∧ envDoiLeadingSpace.doiResponse = .resp 200 (.ok " @a".toList)
    ∧ doiStage envDoiLeadingSpace "doi.org/10.1000/182".toList = none
    ∧ fetch_and_generate_bibtex envDoiLeadingSpace "doi.org/10.1000/182".toList ≠
        .ok " @a".toList :=
  ⟨rfl, by decide, by decide, rfl, by decide, by decide⟩

/-- C2, amended: for a DOI-matching URL whose registry GET yields a body,
the DOI stage returns that body verbatim iff the status is success and the
body's first character (not first non-whitespace character) is `@`; the
non-empty-after-trimming test is then automatically satisfied.  In every
other case with a received body, the orchestrator's result is the
page-scraping path's result. -/
theorem c2_doi_accept_iff (env : Env) (url_str d : List Char) (s : Nat)
    (b : List Char) (h1 : doiCapture url_str = some d)
    (h2 : env.doiResponse = .resp s (.ok b)) :
    (doiStage env url_str = some (.ok b) ↔
      is_success s = true ∧ b.head? = some '@')
    ∧ (¬(is_success s = true ∧ b.head? = some '@') →
        fetch_and_generate_bibtex env url_str = scrapeStage env url_str) := by
  have hstage : doiStage env url_str =
      (if is_success s then
        (if trim b ≠ [] ∧ b.head? = some '@' then some (.ok b) else none)
      else none) := by
    unfold doiStage
    rw [h1, h2]
  constructor
  · rw [hstage]
    cases hs : is_success s with
    | false => simp
    | true =>
      by_cases hat : b.head? = some '@'
      · have htr := trim_ne_nil_of_head_at b hat
        simp [hat, htr]
      · simp [hat]
  · intro hcond
    unfold fetch_and_generate_bibtex
    rw [hstage]
    cases hs : is_success s with
    | false => simp
    | true =>
      have hat : ¬ b.head? = some '@' := fun hh => hcond ⟨hs, hh⟩
      simp [hat]

/-- C2, witness for the amended theorem at a concrete world. -/
theorem c2_witness :
    doiStage envDoiClean "doi.org/10.1000/182".toList = some (.ok "@a".toList) :=
  ((c2_doi_accept_iff envDoiClean _ "10.1000/182".toList 200 "@a".toList
    (by decide) rfl).1).mpr (by decide)

/-- C7, counterexample: Scenario B's page extracts
`(title="Hi", author="Jane Doe", year="2024")`, but the citation key
generated from those fields is not `"Doe2024Hi"`. -/
theorem c7_counterexample :
    extract_metadata docScenarioB =
      .ok ("Hi".toList, "Jane Doe".toList, "2024".toList)
    ∧ generate_citation_key "Jane Doe".toList "2024".toList "Hi".toList ≠
        "Doe2024Hi".toList :=
  ⟨by decide, by decide⟩

/-- C7, amended: on Scenario B's page, extraction yields
`(title="Hi", author="Jane Doe", year="2024")` and the citation key is
`"Jane2024Hi"` — the key uses the FIRST whitespace token of the author
("Jane"), not the surname. -/
theorem c7_scenario_b :
    extract_metadata docScenarioB =
      .ok ("Hi".toList, "Jane Doe".toList, "2024".toList)
    ∧ generate_citation_key "Jane Doe".toList "2024".toList "Hi".toList =
        "Jane2024Hi".toList :=
  ⟨by decide, by decide⟩

/-- C9: for a non-DOI request whose page GET answers a non-success status,
the orchestrator terminates with an extraction error carrying the status,
whatever the rest of the world looks like — in particular no metadata
extraction or record assembly takes place (the result does not depend on
the parsed document, the URL host or the date). -/
theorem c9_non_success_terminal (env : Env) (url_str : List Char) (s : Nat)
    (t : Except Unit (List Char)) (h1 : doiCapture url_str = none)
    (h2 : env.pageResponse = .resp s t) (h3 : is_success s = false) :
    fetch_and_generate_bibtex env url_str =
      .err (.ExtractionError ("URL returned status ".toList ++ statusDisplay s)) := by
  unfold fetch_and_generate_bibtex doiStage scrapeStage
  rw [h1, h2]
  simp [h3]

/-- C9, witness: a page GET answering 404 for a non-DOI URL. -/
theorem c9_witness :
    fetch_and_generate_bibtex envStatus404 "https://example.com/a".toList =
      .err (.ExtractionError ("URL returned status ".toList ++ statusDisplay 404)) :=
  c9_non_success_terminal envStatus404 _ 404 (.ok []) (by decide) rfl (by decide)

/-- C10: year extraction is not total — on a document whose
`meta[property='article:published_time']` content is the 2-byte string
`"ab"`, the byte slice `s[..4]` panics and `extract_metadata` returns no
value at all. -/
theorem c10_slice_panic :
    extract_metadata docMetaShortDate = Except.error ()
    ∧ select_text docMetaShortDate
        "meta[property='article:published_time']".toList "content".toList =
        some "ab".toList :=
  ⟨by decide, by decide⟩

/-- C3, counterexample: the garbage date string `"ab"` is found (a decoded
accepted block carries it), yet extraction yields no value at all — the
4-byte slice panics — so the stated property does not hold for arbitrary
garbage date strings. -/
theorem c3_counterexample :
    (fromJsonSchemaArticle blockShortDate).map SchemaArticle.date_published =
      some (some "ab".toList)
    ∧ extract_from_schema docSchemaShortDate = Except.error () :=
  ⟨rfl, rfl⟩

/-- C3, amended: whenever the year slice returns a value for a found date
string, that value is exactly the 4-byte prefix of the date string — at
most 4 characters, never longer — with no calendar validation; on shorter
(or boundary-breaking) date strings it panics and no year is produced. -/
theorem c3_year_slice (s y : List Char) (h : yearFromDate s = some y) :
    s.take y.length = y ∧ byteLen y = 4 ∧ y.length ≤ 4 := by
  have h2 := byteSlice_spec s 4 y h
  exact ⟨h2.1, h2.2, h2.2 ▸ length_le_byteLen y⟩

/-- C3, witness for the amended theorem on the date string of Scenario B. -/
theorem c3_witness :
    "2024-03-01".toList.take ("2024".toList.length) = "2024".toList
    ∧ byteLen "2024".toList = 4 ∧ "2024".toList.length ≤ 4 :=
  c3_year_slice "2024-03-01".toList "2024".toList (by decide)

/-- C4, counterexample: a block that decodes, has accepted `@type` and a
non-empty headline (so the claim says its result is returned), but whose
1-byte `datePublished` makes the scan panic: no result is reported and the
meta-tag fallback never runs either. -/
theorem c4_counterexample :
    isAcceptedBlock (some blockPanicDate) = true
    ∧ extract_from_schema docSchemaPanic = Except.error ()
    ∧ extract_metadata docSchemaPanic = Except.error () :=
  ⟨rfl, rfl, rfl⟩

/-- C4, amended: provided no decodable block with accepted `@type` carries
a `datePublished` whose 4-byte slice panics, the scanner returns the result
of the first block that decodes, has accepted `@type` and a non-empty
headline (decode failures and rejected blocks are skipped); when no block
is accepted it reports no result and `extract_metadata` runs the meta-tag
fallback; when a block is accepted, `extract_metadata` returns its result
and the meta-tag extraction is never consulted. -/
theorem c4_schema_scan (document : HtmlDoc)
    (h : ∀ b ∈ document.ldJsonBlocks, blockPanics b = false) :
    extract_from_schema document =
      .ok ((document.ldJsonBlocks.find? isAcceptedBlock).map acceptedResult)
    ∧ (document.ldJsonBlocks.find? isAcceptedBlock = none →
        extract_metadata document = metaTagTriple document)
    ∧ (∀ b, document.ldJsonBlocks.find? isAcceptedBlock = some b →
        extract_metadata document = .ok (acceptedResult b)) := by
  have main := schemaScan_eq_find document.ldJsonBlocks h
  refine ⟨main, ?_, ?_⟩
  · intro hnone
    unfold extract_metadata extract_from_schema
    rw [main, hnone]
    rfl
  · intro b hb
    unfold extract_metadata extract_from_schema
    rw [main, hb]
    rfl

/-- C4, witness: a block list with a JSON parse failure, a wrong-type block
and an accepted block, none of which panics. -/
theorem c4_witness :
    extract_from_schema docSchemaCascade =
      .ok ((docSchemaCascade.ldJsonBlocks.find? isAcceptedBlock).map acceptedResult) :=
  (c4_schema_scan docSchemaCascade (by decide)).1

/-- C5, counterexample: a block with accepted `@type`, non-empty headline
and a PRESENT but malformed `author` field is not accepted with an empty
author — its decode fails and the scan reports no result. -/
theorem c5_counterexample :
    fromJsonSchemaArticle (Json.obj fsBadAuthor) = none
    ∧ schemaScan [some (Json.obj fsBadAuthor)] = .ok none :=
  ⟨rfl, rfl⟩

/-- C5, amended: an ABSENT `author` field is defaulted to the empty
sequence (the block can still be accepted); a PRESENT but malformed
`author` field fails the whole block's decode, so the block is skipped. -/
theorem c5_author_default (fs : List (List Char × Json)) :
    (∀ a : SchemaArticle, getField fs "author".toList = none →
      fromJsonSchemaArticle (.obj fs) = some a → a.author = [])
    ∧ (∀ v : Json, getField fs "author".toList = some v →
      decodeAuthorVec v = none → fromJsonSchemaArticle (.obj fs) = none) := by
  constructor
  · intro a h1 h2
    have hauth : decodeAuthorField fs = some [] := by
      unfold decodeAuthorField
      rw [h1]
    simp only [fromJsonSchemaArticle] at h2
    split at h2
    · exact absurd h2 (by simp)
    · obtain ⟨tv, htv, h2⟩ := Option.bind_eq_some.mp h2
      obtain ⟨t, ht, h2⟩ := Option.bind_eq_some.mp h2
      obtain ⟨hh, hhh, h2⟩ := Option.bind_eq_some.mp h2
      obtain ⟨au, hau, h2⟩ := Option.bind_eq_some.mp h2
      obtain ⟨d, hd, h2⟩ := Option.map_eq_some'.mp h2
      injection hauth.symm.trans hau with hau'
      subst h2
      exact hau'.symm
  · intro v h1 h2
    have hauth : decodeAuthorField fs = none := by
      simp only [decodeAuthorField, h1, h2]
    simp only [fromJsonSchemaArticle]
    split
    · rfl
    · cases hgt : getField fs "@type".toList with
      | none => rfl
      | some tv =>
        simp only [Option.some_bind]
        cases hds : decodeString tv with
        | none => rfl
        | some t =>
          simp only [Option.some_bind]
          cases hhl : decodeOptStringField fs "headline".toList with
          | none => rfl
          | some hv =>
            simp only [Option.some_bind]
            simp [hauth]

/-- C5, witness: the absent-author default applied to a concrete block, and
the present-but-malformed case applied to a concrete block. -/
theorem c5_witness :
    (fromJsonSchemaArticle (Json.obj fsNoAuthor)).map SchemaArticle.author = some []
    ∧ fromJsonSchemaArticle (Json.obj fsBadAuthor) = none :=
  ⟨congrArg some ((c5_author_default fsNoAuthor).1 artNoAuthor rfl rfl),
   (c5_author_default fsBadAuthor).2 (.str "Jane".toList) rfl rfl⟩

/-- C6: the citation key is the concatenation, with no separator, of the
alphanumeric-filtered first whitespace token of the author (default
`Unknown`), the year verbatim and unfiltered (`ND` when empty), and the
alphanumeric-filtered first whitespace token of the title (default
`NoTitle`); it is a pure function of the triple and is never empty. -/
theorem c6_citation_key (author year title : List Char) :
    generate_citation_key author year title =
      ((splitWsNext author).getD "Unknown".toList).filter rustIsAlphanumeric ++
        (if year = [] then "ND".toList else year) ++
        ((splitWsNext title).getD "NoTitle".toList).filter rustIsAlphanumeric
    ∧ generate_citation_key author year title ≠ [] := by
  constructor
  · rfl
  · intro hk
    simp only [generate_citation_key] at hk
    simp only [List.append_eq_nil] at hk
    obtain ⟨⟨-, hy⟩, -⟩ := hk
    by_cases hyy : year = []
    · rw [if_pos hyy] at hy
      exact absurd hy (by decide)
    · rw [if_neg hyy] at hy
      exact hyy hy

/-- C8: the meta-tag extractor resolves title and author independently and
per the documented cascades, composes the triple from the three independent
field computations, and `select_text` yields no value (never an error) on
an invalid selector string or a selector matching zero elements. -/
theorem c8_meta_fields (document : HtmlDoc) :
    metaTitleOf document = specMetaTitle document
    ∧ metaAuthorOf document = specMetaAuthor document
    ∧ (∀ y, metaYearOf document = .ok y →
        metaTagTriple document = .ok (metaTitleOf document, metaAuthorOf document, y))
    ∧ (∀ s a, parseSelector s = none → select_text document s a = none)
    ∧ (∀ s sel a, parseSelector s = some sel →
        document.elements.find? (matchesSelector sel) = none →
        select_text document s a = none) := by
  refine ⟨?_, ?_, ?_, ?_, ?_⟩
  · unfold metaTitleOf specMetaTitle
    rw [select_text_attr document "meta[property='og:title']".toList "meta".toList
          "property".toList "og:title".toList "content".toList (by decide) (by decide),
        select_text_text document "title".toList "title".toList (by decide)]
    cases hx : (document.elements.find? (matchesSelector
        (.tagAttr "meta".toList "property".toList "og:title".toList))).bind
        (fun e => (attrLookup e "content".toList).map trim) with
    | some v => rfl
    | none =>
      cases hy : document.elements.find? (matchesSelector (.tag "title".toList)) with
      | some e => rfl
      | none => rfl
  · unfold metaAuthorOf specMetaAuthor
    rw [select_text_attr document "meta[name='author']".toList "meta".toList
          "name".toList "author".toList "content".toList (by decide) (by decide),
        select_text_attr document "meta[property='article:author']".toList "meta".toList
          "property".toList "article:author".toList "content".toList (by decide) (by decide)]
    cases hx : (document.elements.find? (matchesSelector
        (.tagAttr "meta".toList "name".toList "author".toList))).bind
        (fun e => (attrLookup e "content".toList).map trim) with
    | some v => rfl
    | none =>
      cases hy : (document.elements.find? (matchesSelector
          (.tagAttr "meta".toList "property".toList "article:author".toList))).bind
          (fun e => (attrLookup e "content".toList).map trim) with
      | some v => rfl
      | none => rfl
  · intro y hy
    unfold metaTagTriple
    rw [hy]
  · intro s a h
    exact select_text_of_invalid document s a h
  · intro s sel a h1 h2
    exact select_text_of_no_match document s a sel h1 h2

/-- C8, witness: an invalid selector string and a zero-match selector each
yield no value on a concrete document. -/
theorem c8_witness :
    select_text docMetaSample "meta[".toList "content".toList = none
    ∧ select_text docMetaSample "nav".toList "text".toList = none :=
  ⟨(c8_meta_fields docMetaSample).2.2.2.1 "meta[".toList "content".toList (by decide),
   (c8_meta_fields docMetaSample).2.2.2.2 "nav".toList (.tag "nav".toList)
     "text".toList (by decide) (by decide)⟩

end Bibtexter
